import Mathlib

/-!
Shallow embedding of the scoped temporary-file store of `flask_playground`
(`src/flask_playground/file_store.py` and the background cleaner in
`src/flask_playground/app_constructor.py`), together with theorems settling
the specification claims about it.

Paths are modelled as strings, the on-disk directory as the list of file
paths present in it, and the sqlite index as either a reachable table of
records, a reachable database whose `fileindex` table is missing (the state
after the `.index` file is deleted or corrupted: `sqlite3.Connection`
succeeds on a fresh/invalid file, the statement then fails), or an
unreachable database (`sqlite3.Connection` itself raises
`sqlite3.OperationalError`, which `_get_cursor` converts to
`ConnectionError`).  Exceptions become an explicit outcome value paired with
the post-state, because Python exceptions do not undo side effects already
performed.
-/

namespace posixpath

/-- Python `str.startswith`: the candidate prefix's characters lead the
string's characters. -/
def startswith (s pre : String) : Bool :=
  pre.data.isPrefixOf s.data

/-- Python `str.endswith`: the candidate suffix's characters end the
string's characters. -/
def endswith (s suf : String) : Bool :=
  suf.data.isSuffixOf s.data

/-- The worker for Python `str.split` with a one-character separator:
walk the characters, cutting a component at every separator.  `acc` holds
the characters of the current component in reverse. -/
def splitChar (sep : Char) : List Char → List Char → List String
  | [], acc => [String.mk acc.reverse]
  | c :: rest, acc =>
    if c = sep then String.mk acc.reverse :: splitChar sep rest []
    else splitChar sep rest (c :: acc)

/-- Python `path.split("/")`: split on every `/`, keeping empty components
(so `"a//b"` gives `["a", "", "b"]` and `""` gives `[""]`). -/
def split (sep : Char) (s : String) : List String :=
  splitChar sep s.data []

/-- Python `sep.join(components)`: concatenate with `sep` between
consecutive components. -/
def joinsep (sep : String) : List String → String
  | [] => ""
  | [x] => x
  | x :: rest => x ++ sep ++ joinsep sep rest

/-- The component loop of Python `posixpath.normpath`: skip empty and `.`
components, append ordinary components, pop on `..` (except when at the
start of a relative path or on top of another `..`, where `..` is kept, and
except at the root of an absolute path, where `..` is dropped).
`newComps` is Python's `new_comps` list, kept in order. -/
def normparts (initialSlashes : Bool) : List String → List String → List String
  | [], newComps => newComps
  | comp :: rest, newComps =>
    if comp = "" ∨ comp = "." then
      normparts initialSlashes rest newComps
    else if comp ≠ ".." ∨ (¬ initialSlashes ∧ newComps = []) ∨ newComps.getLast? = some ".." then
      normparts initialSlashes rest (newComps ++ [comp])
    else if newComps ≠ [] then
      normparts initialSlashes rest newComps.dropLast
    else
      normparts initialSlashes rest newComps

/-- Python `posixpath.normpath`: collapse `//`, `.` and `..` segments.
An empty path normalizes to `.`; one or two leading slashes are preserved
(three or more collapse to one), matching CPython's implementation. -/
def normpath (path : String) : String :=
  if path = "" then "."
  else
    let initialSlashes : Nat :=
      if ¬ startswith path "/" then 0
      else if startswith path "//" ∧ ¬ startswith path "///" then 2
      else 1
    let comps := split '/' path
    let newComps := normparts (initialSlashes ≠ 0) comps []
    let joined := joinsep "/" newComps
    let out := String.mk (List.replicate initialSlashes '/') ++ joined
    if out = "" then "." else out

/-- Python `posixpath.isabs` (and `os.path.isabs` on posix): a path is
absolute iff it starts with `/`. -/
def isabs (path : String) : Bool :=
  startswith path "/"

/-- Python `posixpath.join` (and `os.path.join` on posix) restricted to two
arguments: the second replaces the first when absolute, otherwise it is
appended with a separating `/` unless the first is empty or already ends
with `/`. -/
def join (a b : String) : String :=
  if startswith b "/" then b
  else if a = "" ∨ endswith a "/" then a ++ b
  else a ++ "/" ++ b

end posixpath

/-- The exceptions the embedded operations can raise.
`valueError` is the `ValueError` of `_assemble_directory`;
`fileExistsError` the `FileExistsError` of `FileStore.open`;
`connectionError` the `ConnectionError` `_get_cursor` raises when the
sqlite connection cannot be opened; `operationalError` the low-level
`sqlite3.OperationalError` that escapes `_get_cursor` when a statement
fails after the connection opened (e.g. `no such table: fileindex`). -/
inductive FSError where
  | valueError
  | fileExistsError
  | connectionError
  | operationalError
deriving DecidableEq, Repr

/-- One row of the `fileindex` table: `(filename TEXT UNIQUE, expires_at INTEGER)`. -/
structure IndexRecord where
  filename : String
  expires_at : Nat
deriving DecidableEq, Repr

/-- The observable states of the sqlite index database.
`unreachable`: `sqlite3.Connection(self._index_file)` raises
`sqlite3.OperationalError` (e.g. the managed directory is missing), which
`_get_cursor` converts to `ConnectionError`.
`noTable`: the connection opens (sqlite creates a fresh empty database for
a missing file) but the `fileindex` table is absent, so every statement on
it raises `sqlite3.OperationalError`, which `_get_cursor` does not catch.
`table recs`: the healthy state with the rows `recs`. -/
inductive IndexDb where
  | unreachable
  | noTable
  | table (records : List IndexRecord)
deriving DecidableEq, Repr

/-- The parts of a `FileStore` object the claims need: the managed
directory and the configured expiry age in hours. -/
structure FileStore where
  file_directory : String
  max_file_age_hours : Nat
deriving DecidableEq, Repr

/-- The world the store operates on: the set of file paths present on disk
in the managed directory, and the index database. -/
structure World where
  disk : List String
  db : IndexDb
deriving DecidableEq, Repr

/-- Boolean membership of a string in a list of strings: the model of
`os.path.exists(file)` against the files on disk and of a SQL row lookup
by filename, implemented with decidable string equality. -/
def memb (x : String) (l : List String) : Bool :=
  l.any (fun y => y = x)

namespace FileStore

/-- Model of `FileStore._assemble_directory`: normalize the directory, reject `.`,
`..`, anything starting with `../` and absolute paths, else join it onto
the root.  Pure path arithmetic, no filesystem access. -/
def _assemble_directory (root directory : String) : Except FSError String :=
  let d := posixpath.normpath directory
  if d = "." ∨ d = ".." ∨ posixpath.startswith d "../" ∨ posixpath.isabs d then
    .error .valueError
  else
    .ok (posixpath.join root d)

/-- Model of `FileStore._save_to_index`: `INSERT OR IGNORE INTO fileindex` of
`(filepath, int(time.time()) + max_file_age_hours * 3600)`.  On a healthy
table the insert is dropped when a row with the same filename already
exists (the `UNIQUE` constraint with `OR IGNORE`); on `noTable` the
statement raises `sqlite3.OperationalError`, and on `unreachable` the
connection raises and `_get_cursor` rethrows `ConnectionError`. -/
def _save_to_index (fs : FileStore) (now : Nat) (filepath : String) :
    IndexDb → Except FSError (List IndexRecord)
  | .unreachable => .error .connectionError
  | .noTable => .error .operationalError
  | .table recs =>
    if recs.any (fun r => r.filename = filepath) then
      .ok recs
    else
      .ok (recs ++ [⟨filepath, now + fs.max_file_age_hours * 3600⟩])

/-- Model of `FileStore._get_expired`: `SELECT filename FROM fileindex WHERE
expires_at <= ?` with `?` bound to `int(time.time())`. -/
def _get_expired (now : Nat) : IndexDb → Except FSError (List String)
  | .unreachable => .error .connectionError
  | .noTable => .error .operationalError
  | .table recs =>
    .ok ((recs.filter (fun r => r.expires_at ≤ now)).map (fun r => r.filename))

/-- Model of `FileStore._delete_from_index`: `DELETE FROM fileindex WHERE filename = ?`
executed for each given path; deleting an absent row is a no-op. -/
def _delete_from_index (filepaths : List String) :
    IndexDb → Except FSError (List IndexRecord)
  | .unreachable => .error .connectionError
  | .noTable => .error .operationalError
  | .table recs =>
    .ok (recs.filter (fun r => ¬ memb r.filename filepaths))

/-- Model of `FileStore.open` (named `openFile` because `open` is a Lean keyword):
join the filename onto the managed directory, raise `FileExistsError` when
the path already exists on disk, otherwise create the file with the
builtin `open(file, mode)` and register it in the index before yielding the
handle.  The builtin `open` has already created the file when
`_save_to_index` runs, and an exception from `_save_to_index` propagates
without removing it, so the post-state keeps the file on disk. -/
def openFile (fs : FileStore) (now : Nat) (filename : String) (w : World) :
    Except FSError Unit × World :=
  let file := posixpath.join fs.file_directory filename
  if memb file w.disk then
    (.error .fileExistsError, w)
  else
    let disk := w.disk ++ [file]
    match fs._save_to_index now file w.db with
    | .error e => (.error e, { w with disk := disk })
    | .ok recs => (.ok (), { disk := disk, db := .table recs })

/-- The disk-deletion half of `FileStore.removed_expired`: `os.remove` on
each expired path with `FileNotFoundError` swallowed, so a path already
absent from disk is simply skipped. -/
def removeFiles (to_remove : List String) (disk : List String) : List String :=
  disk.filter (fun f => ¬ memb f to_remove)

/-- Model of `FileStore.removed_expired`: query the expired paths, delete the files
from disk first (tolerating missing files), then delete their index rows in
a batch.  An exception from the initial query propagates and leaves the
world unchanged. -/
def removed_expired (fs : FileStore) (now : Nat) (w : World) :
    Except FSError Unit × World :=
  match FileStore._get_expired now w.db with
  | .error e => (.error e, w)
  | .ok to_remove =>
    let disk := removeFiles to_remove w.disk
    match FileStore._delete_from_index to_remove w.db with
    | .error e => (.error e, { w with disk := disk })
    | .ok recs => (.ok (), { disk := disk, db := .table recs })

/-- Model of `FileStore.health_check`: run `SELECT 1 from fileindex` through
`_get_cursor`, then write the sentinel file `healthcheck` into the managed
directory with the builtin `open(file, "w")`, which creates or truncates it
without any existence check and without touching the index. -/
def health_check (fs : FileStore) (w : World) : Except FSError Unit × World :=
  match w.db with
  | .unreachable => (.error .connectionError, w)
  | .noTable => (.error .operationalError, w)
  | .table _ =>
    let file := posixpath.join fs.file_directory "healthcheck"
    let disk := if memb file w.disk then w.disk else w.disk ++ [file]
    (.ok (), { w with disk := disk })

end FileStore

namespace Reclaimer

/-- The possible outcomes of one `FileStore(...).removed_expired()` call
inside `_file_cleaner`: success, the `ConnectionError` that `_get_cursor`
raises when the index connection cannot be opened, or any other exception
(for example the `sqlite3.OperationalError` that escapes `_get_cursor`
when the `fileindex` table is missing). -/
inductive SweepOutcome where
  | ok
  | connError
  | otherError
deriving DecidableEq, Repr

/-- The state of the background cleaning loop of `app_constructor.py`:
`running` when a `threading.Timer` for `_file_cleaner` is scheduled in
`timers`, `stopped` when no timer is scheduled (either it was cancelled or
`_file_cleaner` exited without rescheduling). -/
inductive LoopState where
  | running
  | stopped
deriving DecidableEq, Repr

/-- The events the loop reacts to: a timer tick running `_file_cleaner`
with the given sweep outcome, or the `_end_timers` signal handler
cancelling the pending timer. -/
inductive Event where
  | tick (outcome : SweepOutcome)
  | stop
deriving DecidableEq, Repr

/-- One step of the loop, read off `_file_cleaner` and `_end_timers`:
`_file_cleaner` wraps `removed_expired()` in `try ... except
ConnectionError: ...` and then schedules a new timer, so both a successful
sweep and a `ConnectionError` leave the loop running; any other exception
escapes before the rescheduling lines, so no new timer is created and the
loop is dead.  `_end_timers` cancels the pending timer.  A stopped loop
receives no further ticks. -/
def step : Event → LoopState → LoopState
  | _, .stopped => .stopped
  | .stop, .running => .stopped
  | .tick .ok, .running => .running
  | .tick .connError, .running => .running
  | .tick .otherError, .running => .stopped

/-- Run the loop over a sequence of events. -/
def run (s : LoopState) : List Event → LoopState
  | [] => s
  | e :: rest => run (step e s) rest

end Reclaimer

/-- C4: for every relative directory string `d`, `_assemble_directory`
succeeds if and only if the normalized form of `d` is neither `.`, nor
`..`, nor absolute, nor starts with `../`; normalization collapses internal
`..` segments before the check, so `foo/bar/../baz` is accepted and yields
`root/foo/baz`, while `../biz` and `.` fail with the `ValueError` that
models `InvalidDirectory`. -/
theorem claim_C4 (root d : String) :
    ((∃ p, FileStore._assemble_directory root d = Except.ok p) ↔
      ¬ (posixpath.normpath d = "." ∨ posixpath.normpath d = ".." ∨
          posixpath.startswith (posixpath.normpath d) "../" = true ∨
          posixpath.isabs (posixpath.normpath d) = true)) ∧
    FileStore._assemble_directory root "foo/bar/../baz" =
      Except.ok (posixpath.join root "foo/baz") ∧
    FileStore._assemble_directory root "../biz" = Except.error FSError.valueError ∧
    FileStore._assemble_directory root "." = Except.error FSError.valueError := by
  refine ⟨?_, rfl, rfl, rfl⟩
  constructor
  · rintro ⟨p, hp⟩ hbad
    simp only [FileStore._assemble_directory] at hp
    rw [if_pos hbad] at hp
    exact absurd hp (by simp)
  · intro hgood
    refine ⟨posixpath.join root (posixpath.normpath d), ?_⟩
    simp only [FileStore._assemble_directory]
    rw [if_neg hgood]

/-- C5: index insert is idempotent — for every filename and any two expiry
parameters (store configuration and insertion time), inserting into a table
holding no record for that filename succeeds, the resulting table holds
exactly one record for the filename carrying the first expiry
`now + max_file_age_hours * 3600`, and a second insert of the same filename
succeeds silently without changing the table, in particular never
overwriting the stored expiry. -/
theorem claim_C5 (fs1 fs2 : FileStore) (n1 n2 : Nat) (fp : String)
    (recs : List IndexRecord) (hfresh : ∀ r ∈ recs, r.filename ≠ fp) :
    ∃ recs1,
      fs1._save_to_index n1 fp (IndexDb.table recs) = Except.ok recs1 ∧
      fs2._save_to_index n2 fp (IndexDb.table recs1) = Except.ok recs1 ∧
      recs1.filter (fun r => r.filename = fp) =
        [⟨fp, n1 + fs1.max_file_age_hours * 3600⟩] := by
  have hany : recs.any (fun r => r.filename = fp) = false := by
    simp only [List.any_eq_false, decide_eq_true_eq]
    exact hfresh
  refine ⟨recs ++ [⟨fp, n1 + fs1.max_file_age_hours * 3600⟩], ?_, ?_, ?_⟩
  · simp [FileStore._save_to_index, hany]
  · simp [FileStore._save_to_index]
  · have hnil : recs.filter (fun r => r.filename = fp) = [] := by
      simp only [List.filter_eq_nil_iff, decide_eq_true_eq]
      exact hfresh
    simp [List.filter_append, hnil]

/-- C5 witness: the theorem instantiated at a concrete table holding one
unrelated record, two distinct stores and two distinct times. -/
theorem claim_C5_witness :
    (∀ r ∈ [(⟨"/d/b", 5⟩ : IndexRecord)], r.filename ≠ "/d/a") ∧
    (∃ recs1,
      FileStore._save_to_index ⟨"/d", 1⟩ 10 "/d/a"
          (IndexDb.table [⟨"/d/b", 5⟩]) = Except.ok recs1 ∧
      FileStore._save_to_index ⟨"/d", 7⟩ 400 "/d/a"
          (IndexDb.table recs1) = Except.ok recs1 ∧
      recs1.filter (fun r => r.filename = "/d/a") = [⟨"/d/a", 10 + 1 * 3600⟩]) :=
  ⟨by decide, claim_C5 ⟨"/d", 1⟩ ⟨"/d", 7⟩ 10 400 "/d/a" [⟨"/d/b", 5⟩] (by decide)⟩

/-- C1 counterexample: with the `fileindex` table missing (the
registration statement raises), `FileStore.open` of `a.txt` fails — but
the file it just created is still on disk and has no index record, so the
operation is not atomic and the claimed rollback does not happen: the
store has created a file that is neither indexed nor removed. -/
theorem claim_C1_counterexample :
    (FileStore.openFile ⟨"/app/files", 1⟩ 0 "a.txt"
        ⟨[], IndexDb.noTable⟩).1 = Except.error FSError.operationalError ∧
    (FileStore.openFile ⟨"/app/files", 1⟩ 0 "a.txt"
        ⟨[], IndexDb.noTable⟩).2.disk = ["/app/files/a.txt"] ∧
    (FileStore.openFile ⟨"/app/files", 1⟩ 0 "a.txt"
        ⟨[], IndexDb.noTable⟩).2.db = IndexDb.noTable := by
  refine ⟨rfl, rfl, rfl⟩

/-- C1 amended: if registering the file in the index fails after the file
was created on disk, `FileStore.open` fails with the index error — but the
created file is NOT removed: it remains on disk, un-indexed, and the index
is left unchanged.  There is no rollback in the code. -/
theorem claim_C1 (fs : FileStore) (now : Nat) (filename : String) (w : World)
    (e : FSError)
    (hnot : memb (posixpath.join fs.file_directory filename) w.disk = false)
    (hfail : fs._save_to_index now (posixpath.join fs.file_directory filename)
        w.db = Except.error e) :
    fs.openFile now filename w =
      (Except.error e,
        ⟨w.disk ++ [posixpath.join fs.file_directory filename], w.db⟩) := by
  simp only [FileStore.openFile, hnot, Bool.false_eq_true, if_false, hfail]

/-- C1 witness: the amended theorem applied at the counterexample's input. -/
theorem claim_C1_witness :
    (memb (posixpath.join (⟨"/app/files", 1⟩ : FileStore).file_directory "a.txt")
        (⟨[], IndexDb.noTable⟩ : World).disk = false ∧
      FileStore._save_to_index ⟨"/app/files", 1⟩ 0
        (posixpath.join (⟨"/app/files", 1⟩ : FileStore).file_directory "a.txt")
        (⟨[], IndexDb.noTable⟩ : World).db = Except.error FSError.operationalError) ∧
    FileStore.openFile ⟨"/app/files", 1⟩ 0 "a.txt" ⟨[], IndexDb.noTable⟩ =
      (Except.error FSError.operationalError,
        ⟨[posixpath.join "/app/files" "a.txt"], IndexDb.noTable⟩) := by
  refine ⟨⟨rfl, rfl⟩, ?_⟩
  have h := claim_C1 ⟨"/app/files", 1⟩ 0 "a.txt" ⟨[], IndexDb.noTable⟩
    FSError.operationalError rfl rfl
  simpa using h

/-- C2: behavior of the code at the failing input for the claim that
`max_file_age_hours = 0` disables expiry.  With age 0, `_save_to_index`
at time 1000 writes `expires_at = 1000 + 0 * 3600 = 1000`, the expiry
query at that very instant already returns the record (filter
`expires_at <= now`), and `removed_expired` deletes the file and its
record — the file expires immediately instead of never, contradicting the
constructor's own docstring (`zero to disable`) and the claim. -/
theorem claim_C2_code_behavior :
    FileStore._save_to_index ⟨"/app/files", 0⟩ 1000 "/app/files/a.txt"
        (IndexDb.table []) = Except.ok [⟨"/app/files/a.txt", 1000⟩] ∧
    FileStore._get_expired 1000 (IndexDb.table [⟨"/app/files/a.txt", 1000⟩]) =
      Except.ok ["/app/files/a.txt"] ∧
    FileStore.removed_expired ⟨"/app/files", 0⟩ 1000
        ⟨["/app/files/a.txt"], IndexDb.table [⟨"/app/files/a.txt", 1000⟩]⟩ =
      (Except.ok (), ⟨[], IndexDb.table []⟩) := by
  refine ⟨rfl, rfl, rfl⟩

/-- C3 counterexample: with the managed directory intact but the index
file deleted or corrupted (`noTable`: the sqlite connection opens against
a fresh or invalid database and the probe statement fails),
`health_check` raises the low-level `sqlite3.OperationalError`, not the
store's generic `ConnectionError` — exactly what the repository's own test
`test_healthcheck_fails_with_no_database` expects. -/
theorem claim_C3_counterexample :
    (FileStore.health_check ⟨"/app/files", 1⟩ ⟨[], IndexDb.noTable⟩).1 =
      Except.error FSError.operationalError ∧
    (FileStore.health_check ⟨"/app/files", 1⟩ ⟨[], IndexDb.noTable⟩).1 ≠
      Except.error FSError.connectionError := by
  refine ⟨rfl, by simp [FileStore.health_check]⟩

/-- C3 amended: `health_check` fails with the generic `ConnectionError`
only when the index connection itself cannot be opened (`unreachable`);
when the index file is missing or corrupted but the connection opens
(`noTable`), the probe query's low-level `sqlite3.OperationalError`
escapes `_get_cursor` unhandled and leaks to the caller. -/
theorem claim_C3 (fs : FileStore) (w : World) :
    (w.db = IndexDb.unreachable →
      fs.health_check w = (Except.error FSError.connectionError, w)) ∧
    (w.db = IndexDb.noTable →
      fs.health_check w = (Except.error FSError.operationalError, w)) := by
  constructor
  · intro h
    simp only [FileStore.health_check, h]
  · intro h
    simp only [FileStore.health_check, h]

/-- C3 witness: the amended theorem applied to a store whose index file
was deleted while its directory survives. -/
theorem claim_C3_witness :
    (⟨[], IndexDb.noTable⟩ : World).db = IndexDb.noTable ∧
    FileStore.health_check ⟨"/dl", 1⟩ ⟨[], IndexDb.noTable⟩ =
      (Except.error FSError.operationalError, ⟨[], IndexDb.noTable⟩) :=
  ⟨rfl, (claim_C3 ⟨"/dl", 1⟩ ⟨[], IndexDb.noTable⟩).2 rfl⟩

/-- C6: after a successful `FileStore.open` of `a.txt` the file is on disk
with exactly one index record (carrying `now + max_file_age_hours * 3600`),
and a second `FileStore.open` of the same name fails with
`FileExistsError` while leaving disk and index unchanged. -/
theorem claim_C6 (fs : FileStore) (n1 n2 : Nat) (filename : String)
    (recs : List IndexRecord) (w : World) (hdb : w.db = IndexDb.table recs)
    (hdisk : memb (posixpath.join fs.file_directory filename) w.disk = false)
    (hrecs : ∀ r ∈ recs, r.filename ≠ posixpath.join fs.file_directory filename) :
    ∃ w1,
      fs.openFile n1 filename w = (Except.ok (), w1) ∧
      memb (posixpath.join fs.file_directory filename) w1.disk = true ∧
      (∃ recs1, w1.db = IndexDb.table recs1 ∧
        recs1.filter
            (fun r => r.filename = posixpath.join fs.file_directory filename) =
          [⟨posixpath.join fs.file_directory filename,
            n1 + fs.max_file_age_hours * 3600⟩]) ∧
      fs.openFile n2 filename w1 = (Except.error FSError.fileExistsError, w1) := by
  have hany : recs.any
      (fun r => r.filename = posixpath.join fs.file_directory filename) = false := by
    simp only [List.any_eq_false, decide_eq_true_eq]
    exact hrecs
  have hmem : memb (posixpath.join fs.file_directory filename)
      (w.disk ++ [posixpath.join fs.file_directory filename]) = true := by
    simp [memb]
  refine ⟨⟨w.disk ++ [posixpath.join fs.file_directory filename],
    IndexDb.table (recs ++ [⟨posixpath.join fs.file_directory filename,
      n1 + fs.max_file_age_hours * 3600⟩])⟩, ?_, hmem, ?_, ?_⟩
  · simp only [FileStore.openFile, hdisk, Bool.false_eq_true, if_false, hdb,
      FileStore._save_to_index, hany]
  · refine ⟨_, rfl, ?_⟩
    have hnil : recs.filter
        (fun r => r.filename = posixpath.join fs.file_directory filename) = [] := by
      simp only [List.filter_eq_nil_iff, decide_eq_true_eq]
      exact hrecs
    simp [List.filter_append, hnil]
  · simp only [FileStore.openFile, hmem, if_true]

/-- C6 witness: the theorem instantiated at an empty store. -/
theorem claim_C6_witness :
    ((⟨[], IndexDb.table []⟩ : World).db = IndexDb.table [] ∧
      memb (posixpath.join "/dl" "a.txt") ([] : List String) = false ∧
      (∀ r ∈ ([] : List IndexRecord),
        r.filename ≠ posixpath.join "/dl" "a.txt")) ∧
    (∃ w1,
      FileStore.openFile ⟨"/dl", 1⟩ 5 "a.txt" ⟨[], IndexDb.table []⟩ =
        (Except.ok (), w1) ∧
      memb (posixpath.join "/dl" "a.txt") w1.disk = true ∧
      (∃ recs1, w1.db = IndexDb.table recs1 ∧
        recs1.filter (fun r => r.filename = posixpath.join "/dl" "a.txt") =
          [⟨posixpath.join "/dl" "a.txt", 5 + 1 * 3600⟩]) ∧
      FileStore.openFile ⟨"/dl", 1⟩ 9 "a.txt" w1 =
        (Except.error FSError.fileExistsError, w1)) :=
  ⟨⟨rfl, rfl, by simp⟩,
    claim_C6 ⟨"/dl", 1⟩ 5 9 "a.txt" [] ⟨[], IndexDb.table []⟩ rfl rfl (by simp)⟩

/-- Helper for C7 and C10: a file on disk survives `removed_expired`
whenever every index record bearing its name has a strictly future
expiry (in particular when no record bears its name at all). -/
theorem mem_disk_after_sweep (fs : FileStore) (now : Nat) (disk : List String)
    (recs : List IndexRecord) (f : String)
    (hfut : ∀ r ∈ recs, r.filename = f → now < r.expires_at)
    (hdisk : f ∈ disk) :
    f ∈ (fs.removed_expired now ⟨disk, IndexDb.table recs⟩).2.disk := by
  have hnm : memb f
      ((recs.filter (fun r => r.expires_at ≤ now)).map (fun r => r.filename)) =
        false := by
    simp only [memb, List.any_eq_false, decide_eq_true_eq, List.mem_map,
      List.mem_filter]
    rintro x ⟨r, ⟨hr, hle⟩, hname⟩ hxf
    exact absurd (hfut r hr (hname.trans hxf))
      (not_lt.mpr (by simpa using hle))
  simp only [FileStore.removed_expired, FileStore._get_expired,
    FileStore._delete_from_index, FileStore.removeFiles]
  simp only [List.mem_filter, decide_eq_true_eq]
  exact ⟨hdisk, by simp [hnm]⟩

/-- C7: the expiry filter is inclusive and evaluated at sweep time — the
expiry query returns exactly the filenames of records with
`expires_at <= now` (so a past expiry is returned and a strictly future
one is not), and a file on disk whose every index record has a future
expiry is never removed by the sweep. -/
theorem claim_C7 (fs : FileStore) (now : Nat) (recs : List IndexRecord)
    (w : World) (f : String) (hdb : w.db = IndexDb.table recs)
    (hfut : ∀ r ∈ recs, r.filename = f → now < r.expires_at)
    (hdisk : f ∈ w.disk) :
    (∃ expired, FileStore._get_expired now (IndexDb.table recs) =
        Except.ok expired ∧
      ∀ fp, fp ∈ expired ↔ ∃ r ∈ recs, r.filename = fp ∧ r.expires_at ≤ now) ∧
    f ∈ (fs.removed_expired now w).2.disk := by
  constructor
  · refine ⟨_, rfl, ?_⟩
    intro fp
    simp only [List.mem_map, List.mem_filter, decide_eq_true_eq]
    constructor
    · rintro ⟨r, ⟨hr, hle⟩, hname⟩
      exact ⟨r, hr, hname, hle⟩
    · rintro ⟨r, hr, hname, hle⟩
      exact ⟨r, ⟨hr, hle⟩, hname⟩
  · obtain ⟨disk, db⟩ := w
    simp only at hdb
    subst hdb
    exact mem_disk_after_sweep fs now disk recs f hfut hdisk

/-- C7 witness: a table with one future record for the file and one
already-expired unrelated record, swept at an instant between the two. -/
theorem claim_C7_witness :
    ((⟨["/d/f", "/d/old"],
        IndexDb.table [⟨"/d/f", 100⟩, ⟨"/d/old", 3⟩]⟩ : World).db =
      IndexDb.table [⟨"/d/f", 100⟩, ⟨"/d/old", 3⟩] ∧
      (∀ r ∈ [(⟨"/d/f", 100⟩ : IndexRecord), ⟨"/d/old", 3⟩],
        r.filename = "/d/f" → 50 < r.expires_at) ∧
      "/d/f" ∈ ["/d/f", "/d/old"]) ∧
    ((∃ expired, FileStore._get_expired 50
        (IndexDb.table [⟨"/d/f", 100⟩, ⟨"/d/old", 3⟩]) = Except.ok expired ∧
      ∀ fp, fp ∈ expired ↔
        ∃ r ∈ [(⟨"/d/f", 100⟩ : IndexRecord), ⟨"/d/old", 3⟩],
          r.filename = fp ∧ r.expires_at ≤ 50) ∧
    "/d/f" ∈ (FileStore.removed_expired ⟨"/d", 1⟩ 50
        ⟨["/d/f", "/d/old"],
          IndexDb.table [⟨"/d/f", 100⟩, ⟨"/d/old", 3⟩]⟩).2.disk) :=
  ⟨⟨rfl, by decide, by decide⟩,
    claim_C7 ⟨"/d", 1⟩ 50 [⟨"/d/f", 100⟩, ⟨"/d/old", 3⟩]
      ⟨["/d/f", "/d/old"], IndexDb.table [⟨"/d/f", 100⟩, ⟨"/d/old", 3⟩]⟩
      "/d/f" rfl (by decide) (by decide)⟩

/-- C8: on a healthy index the sweep never raises — it deletes the expired
files from disk first and their index rows second (the final state is the
batch index deletion applied after the tolerant disk deletion), and the
index record of every expired path is removed even when its file was
already gone from disk beforehand. -/
theorem claim_C8 (fs : FileStore) (now : Nat) (w : World)
    (recs : List IndexRecord) (hdb : w.db = IndexDb.table recs) :
    (fs.removed_expired now w).1 = Except.ok () ∧
    (∃ to_remove, FileStore._get_expired now w.db = Except.ok to_remove ∧
      (fs.removed_expired now w).2.disk = FileStore.removeFiles to_remove w.disk ∧
      (fs.removed_expired now w).2.db =
        IndexDb.table (recs.filter (fun r => ¬ memb r.filename to_remove))) ∧
    (∀ recs1, (fs.removed_expired now w).2.db = IndexDb.table recs1 →
      ∀ r ∈ recs, r.expires_at ≤ now → r ∉ recs1) := by
  obtain ⟨disk, db⟩ := w
  simp only at hdb
  subst hdb
  refine ⟨rfl, ⟨_, rfl, rfl, rfl⟩, ?_⟩
  intro recs1 h1 r hr hle hmem1
  simp only [FileStore.removed_expired, FileStore._get_expired,
    FileStore._delete_from_index, IndexDb.table.injEq] at h1
  subst h1
  rw [List.mem_filter] at hmem1
  have hmm : memb r.filename
      ((recs.filter (fun r => r.expires_at ≤ now)).map (fun r => r.filename)) =
        true := by
    simp only [memb, List.any_eq_true, decide_eq_true_eq, List.mem_map,
      List.mem_filter]
    exact ⟨r.filename, ⟨r, ⟨hr, by simpa using hle⟩, rfl⟩, rfl⟩
  simp [hmm] at hmem1

/-- C8 witness: one expired record whose file was manually removed, one
expired record with its file present, one live record; the sweep succeeds,
only the live file and record remain. -/
theorem claim_C8_witness :
    ((⟨["/d/here", "/d/live"],
        IndexDb.table [⟨"/d/gone", 5⟩, ⟨"/d/here", 6⟩, ⟨"/d/live", 99⟩]⟩ :
          World).db =
      IndexDb.table [⟨"/d/gone", 5⟩, ⟨"/d/here", 6⟩, ⟨"/d/live", 99⟩]) ∧
    ((FileStore.removed_expired ⟨"/d", 1⟩ 10
        ⟨["/d/here", "/d/live"],
          IndexDb.table [⟨"/d/gone", 5⟩, ⟨"/d/here", 6⟩, ⟨"/d/live", 99⟩]⟩).1 =
      Except.ok () ∧
    (∃ to_remove, FileStore._get_expired 10
        (⟨["/d/here", "/d/live"],
          IndexDb.table [⟨"/d/gone", 5⟩, ⟨"/d/here", 6⟩, ⟨"/d/live", 99⟩]⟩ :
            World).db = Except.ok to_remove ∧
      (FileStore.removed_expired ⟨"/d", 1⟩ 10
        ⟨["/d/here", "/d/live"],
          IndexDb.table [⟨"/d/gone", 5⟩, ⟨"/d/here", 6⟩, ⟨"/d/live", 99⟩]⟩).2.disk =
        FileStore.removeFiles to_remove ["/d/here", "/d/live"] ∧
      (FileStore.removed_expired ⟨"/d", 1⟩ 10
        ⟨["/d/here", "/d/live"],
          IndexDb.table [⟨"/d/gone", 5⟩, ⟨"/d/here", 6⟩, ⟨"/d/live", 99⟩]⟩).2.db =
        IndexDb.table
          (([⟨"/d/gone", 5⟩, ⟨"/d/here", 6⟩, ⟨"/d/live", 99⟩] :
              List IndexRecord).filter
            (fun r => ¬ memb r.filename to_remove))) ∧
    (∀ recs1,
      (FileStore.removed_expired ⟨"/d", 1⟩ 10
        ⟨["/d/here", "/d/live"],
          IndexDb.table [⟨"/d/gone", 5⟩, ⟨"/d/here", 6⟩, ⟨"/d/live", 99⟩]⟩).2.db =
        IndexDb.table recs1 →
      ∀ r ∈ [(⟨"/d/gone", 5⟩ : IndexRecord), ⟨"/d/here", 6⟩, ⟨"/d/live", 99⟩],
        r.expires_at ≤ 10 → r ∉ recs1)) :=
  ⟨rfl,
    claim_C8 ⟨"/d", 1⟩ 10
      ⟨["/d/here", "/d/live"],
        IndexDb.table [⟨"/d/gone", 5⟩, ⟨"/d/here", 6⟩, ⟨"/d/live", 99⟩]⟩
      [⟨"/d/gone", 5⟩, ⟨"/d/here", 6⟩, ⟨"/d/live", 99⟩] rfl⟩

/-- Helper for C9: if running the loop ends stopped, either it started
stopped, or the trace contains an explicit stop, or it contains a tick
whose sweep failed with something other than `ConnectionError`. -/
theorem run_stopped_cases (trace : List Reclaimer.Event) :
    ∀ s : Reclaimer.LoopState, Reclaimer.run s trace = .stopped →
      s = .stopped ∨ Reclaimer.Event.stop ∈ trace ∨
        Reclaimer.Event.tick .otherError ∈ trace := by
  induction trace with
  | nil =>
    intro s h
    exact Or.inl h
  | cons e rest ih =>
    intro s h
    simp only [Reclaimer.run] at h
    rcases ih (Reclaimer.step e s) h with h1 | h2 | h3
    · cases s with
      | stopped => exact Or.inl rfl
      | running =>
        cases e with
        | stop => exact Or.inr (Or.inl (List.mem_cons_self _ _))
        | tick o =>
          cases o with
          | ok => simp [Reclaimer.step] at h1
          | connError => simp [Reclaimer.step] at h1
          | otherError => exact Or.inr (Or.inr (List.mem_cons_self _ _))
    · exact Or.inr (Or.inl (List.mem_cons_of_mem _ h2))
    · exact Or.inr (Or.inr (List.mem_cons_of_mem _ h3))

/-- C9 counterexample: one tick in which the sweep raises an exception
other than `ConnectionError` (e.g. the `sqlite3.OperationalError` thrown
when the `fileindex` table is missing) leaves `_file_cleaner` without
rescheduling, so the loop is stopped although no stop signal ever
occurred — the Stopped state is not reached only via explicit `stop()`. -/
theorem claim_C9_counterexample :
    Reclaimer.run .running [Reclaimer.Event.tick .otherError] =
      Reclaimer.LoopState.stopped ∧
    Reclaimer.Event.stop ∉ [Reclaimer.Event.tick .otherError] := by
  refine ⟨rfl, by decide⟩

/-- C9 amended: a cycle whose sweep raises `ConnectionError` (the
connectivity failure) leaves the loop running, so it retries on the next
tick; and the loop reaches Stopped only via an explicit stop signal or
via a sweep failure other than `ConnectionError`, which escapes
`_file_cleaner`'s `except ConnectionError` and kills the loop without
rescheduling. -/
theorem claim_C9 (trace : List Reclaimer.Event) :
    Reclaimer.step (.tick .connError) .running = Reclaimer.LoopState.running ∧
    (Reclaimer.run .running trace = .stopped →
      Reclaimer.Event.stop ∈ trace ∨
        Reclaimer.Event.tick .otherError ∈ trace) := by
  refine ⟨rfl, fun h => ?_⟩
  rcases run_stopped_cases trace .running h with h1 | h2 | h3
  · exact absurd h1 (by decide)
  · exact Or.inl h2
  · exact Or.inr h3

/-- C9 witness: the amended theorem applied to the one-event trace that
stops the loop explicitly. -/
theorem claim_C9_witness :
    Reclaimer.run .running [Reclaimer.Event.stop] =
      Reclaimer.LoopState.stopped ∧
    (Reclaimer.Event.stop ∈ [Reclaimer.Event.stop] ∨
      Reclaimer.Event.tick .otherError ∈ [Reclaimer.Event.stop]) :=
  ⟨rfl, (claim_C9 [Reclaimer.Event.stop]).2 rfl⟩

/-- C10: every successful `health_check` leaves the file `healthcheck` on
disk in the managed directory without inserting any index record for it;
since the sweep deletes only paths returned by the index query, the
sentinel survives every `removed_expired`, and a later `FileStore.open`
of `healthcheck` fails with `FileExistsError` although the index has no
record for that name. -/
theorem claim_C10 (fs : FileStore) (w : World) (recs : List IndexRecord)
    (hdb : w.db = IndexDb.table recs)
    (hnorec : ∀ r ∈ recs,
      r.filename ≠ posixpath.join fs.file_directory "healthcheck") :
    ∃ w1,
      fs.health_check w = (Except.ok (), w1) ∧
      w1.db = w.db ∧
      memb (posixpath.join fs.file_directory "healthcheck") w1.disk = true ∧
      (∀ now, posixpath.join fs.file_directory "healthcheck" ∈
        (fs.removed_expired now w1).2.disk) ∧
      (∀ n, fs.openFile n "healthcheck" w1 =
        (Except.error FSError.fileExistsError, w1)) := by
  obtain ⟨disk, db⟩ := w
  simp only at hdb
  subst hdb
  refine ⟨⟨if memb (posixpath.join fs.file_directory "healthcheck") disk = true
    then disk else disk ++ [posixpath.join fs.file_directory "healthcheck"],
    IndexDb.table recs⟩, ?_, rfl, ?_, ?_, ?_⟩
  · simp only [FileStore.health_check]
  · split
    · next h => exact h
    · simp [memb]
  · intro now
    refine mem_disk_after_sweep fs now _ recs _ ?_ ?_
    · intro r hr hname
      exact absurd hname (hnorec r hr)
    · split
      · next h =>
        simpa [memb, List.any_eq_true] using h
      · simp
  · intro n
    have hmem : memb (posixpath.join fs.file_directory "healthcheck")
        (if memb (posixpath.join fs.file_directory "healthcheck") disk = true
          then disk else disk ++ [posixpath.join fs.file_directory "healthcheck"]) =
          true := by
      split
      · next h => exact h
      · simp [memb]
    simp only [FileStore.openFile, hmem, if_true]

/-- C10 witness: the theorem applied to a healthy empty store. -/
theorem claim_C10_witness :
    ((⟨[], IndexDb.table []⟩ : World).db = IndexDb.table [] ∧
      (∀ r ∈ ([] : List IndexRecord),
        r.filename ≠ posixpath.join "/dl" "healthcheck")) ∧
    (∃ w1,
      FileStore.health_check ⟨"/dl", 1⟩ ⟨[], IndexDb.table []⟩ =
        (Except.ok (), w1) ∧
      w1.db = (⟨[], IndexDb.table []⟩ : World).db ∧
      memb (posixpath.join "/dl" "healthcheck") w1.disk = true ∧
      (∀ now, posixpath.join "/dl" "healthcheck" ∈
        (FileStore.removed_expired ⟨"/dl", 1⟩ now w1).2.disk) ∧
      (∀ n, FileStore.openFile ⟨"/dl", 1⟩ n "healthcheck" w1 =
        (Except.error FSError.fileExistsError, w1))) :=
  ⟨⟨rfl, by simp⟩,
    claim_C10 ⟨"/dl", 1⟩ ⟨[], IndexDb.table []⟩ [] rfl (by simp)⟩
